import Mathlib

/-!
Verification development for the SIG Auth project-board sync tool
(`main.go` of kubernetes-sigs/sig-auth-tools).

The program is a one-shot batch job: it resolves project 116 in the
`kubernetes` organization, resolves the ids of the "Needs Triage" and
"Subprojects - Needs Triage" options of the Status field, then for every
issue/PR discovered in `kubernetes` repositories (label `sig/auth`) and in
`kubernetes-sigs` repositories (topic `k8s-sig-auth`) adds the item to the
board and, when the returned board item has no Status value yet, writes the
target status option.

The embedding below translates the Go source shallowly:
* pure helpers (`getStatusFieldOption`) become Lean functions;
* fallible API round-trips become `Except` values supplied as oracle
  parameters, so each Go function's own control flow is embedded exactly;
* the GitHub Projects API semantics documented in the source comments
  (idempotent `addProjectV2ItemById`, `updateProjectV2ItemFieldValue`)
  are modelled by an explicit board state, so that end-to-end properties
  (idempotence, non-clobbering, no deletion) can be stated;
* `main`'s orchestration is embedded as a trace-producing function over an
  abstract gateway record; `must(err)` (panic on error) is modelled by
  aborting the run with the error.
-/

namespace SigAuthSync

/-- Errors are carried as human-readable strings, as in the Go code
(`error` values built with `fmt.Errorf`). -/
abbrev GHError := String

deriving instance DecidableEq for Except

/-- One option of a `ProjectV2SingleSelectField`: an (id, name) pair
(source: the `Options` element type inside `ProjectV2`, main.go lines 226-229). -/
structure StatusOption where
  id : String
  name : String
  deriving Repr, DecidableEq

/-- The Status single-select field of a project: its id and its options
(source: the `Field.ProjectV2SingleSelectField` struct inside `ProjectV2`,
main.go lines 223-231). -/
structure ProjectV2SingleSelectField where
  id : String
  options : List StatusOption
  deriving Repr, DecidableEq

/-- A GitHub Projects (v2) board (source: `ProjectV2`, main.go lines 219-232).
`number` is the project number; `field` is the Status field queried by
`field(name: "Status")`. -/
structure ProjectV2 where
  title : String
  id : String
  number : Int
  field : ProjectV2SingleSelectField
  deriving Repr, DecidableEq

/-- A board item as returned by `addProjectV2ItemById`
(source: `ProjectV2Item`, main.go lines 208-216).  `statusName` embeds
`FieldValueByName.ProjectV2SingleSelectField.Name`, the current label of the
item's Status value; the GraphQL zero value `""` means the status is unset. -/
structure ProjectV2Item where
  id : String
  statusName : String
  deriving Repr, DecidableEq

/-- Linear scan over the Status options for the first one whose name equals
`desired` exactly; embeds the `for _, opt := range field.Options` loop of
`getStatusFieldOption` (main.go lines 260-264). -/
def findOption : List StatusOption → String → Option StatusOption
  | [], _ => none
  | opt :: rest, desired =>
      if opt.name = desired then some opt else findOption rest desired

/-- Embeds `getStatusFieldOption` (main.go lines 258-266): returns the Status
field's id together with the id of the option whose name is exactly
`desired`, or a not-found error. -/
def getStatusFieldOption (project : ProjectV2) (desired : String) :
    Except GHError (String × String) :=
  match findOption project.field.options desired with
  | some opt => .ok (project.field.id, opt.id)
  | none => .error ("status option \"" ++ desired ++ "\" not found")

/-- Embeds `getProject` (main.go lines 235-255), with the GraphQL round-trip
(`c.v4Client.Query`) supplied as the oracle `queryResult`: on query success
the returned `ProjectV2` is rejected with a not-found error when its `ID`
is the empty string (the GraphQL zero value for an absent project). -/
def getProject (queryResult : Except GHError ProjectV2) (org : String)
    (number : Int) : Except GHError ProjectV2 :=
  match queryResult with
  | .error e => .error e
  | .ok p =>
      if p.id = "" then
        .error ("project " ++ toString number ++ " not found in org " ++ org)
      else
        .ok p

/-- Models the GraphQL server side of `organization.projectV2(number:)`
used by `getProject`: among the organization's boards, the one with the
requested number, or the zero value (all fields empty, hence `id = ""`)
when no board has that number.  This is the documented semantics of the
external API, not repository code. -/
def queryProjectV2ByNumber (projects : List ProjectV2) (number : Int) :
    ProjectV2 :=
  match projects.find? (fun p => p.number == number) with
  | some p => p
  | none => { title := "", id := "", number := 0, field := { id := "", options := [] } }

/-- Record of one `updateProjectV2ItemFieldValue` mutation issued by the
reconciler: the target item id and the field/option ids written
(source: the `input` of `updateProjectItemField`, main.go lines 297-304). -/
structure UpdateCall where
  itemId : String
  fieldId : String
  optionId : String
  deriving Repr, DecidableEq

/-- Embeds `addAndUpdateProjectItem` (main.go lines 117-130), control-flow view.
The two API round-trips are oracle parameters: `addResult` is the outcome of
`addProjectV2ItemById` and `updateProjectItemField` the status-write
operation.  Returns the call's outcome together with the list of status-write
mutations issued (empty or a single `UpdateCall`): the write is issued only
in the `len(projectItem.FieldValueByName.ProjectV2SingleSelectField.Name) == 0`
branch. -/
def addAndUpdateProjectItem (projectID : String)
    (addResult : Except GHError ProjectV2Item)
    (updateProjectItemField : String → String → String → String → Except GHError Unit)
    (fieldID optionID : String) : Except GHError Unit × List UpdateCall :=
  match addResult with
  | .error e => (.error e, [])
  | .ok projectItem =>
      if projectItem.statusName.length = 0 then
        (updateProjectItemField projectID projectItem.id fieldID optionID,
         [{ itemId := projectItem.id, fieldId := fieldID, optionId := optionID }])
      else
        (.ok (), [])

/-- A board item as stored on the GitHub side: board-item id, the id of the
content object (issue/PR) it attaches, and the id of the Status option set
on it (`none` until some writer sets a status).  Models the Projects API
state the source's comments rely on. -/
structure BoardItem where
  itemId : String
  contentId : String
  statusOptionId : Option String
  deriving Repr, DecidableEq

/-- The stored state of one project board: its items in insertion order and
a counter for fresh item ids. -/
structure Board where
  items : List BoardItem
  nextId : Nat
  deriving Repr, DecidableEq

/-- The status label of a stored board item, as reported by
`fieldValueByName(name: "Status")`: the name of the option currently set,
or `""` when no status is set (or the set option id is unknown to the
field). -/
def statusLabel (project : ProjectV2) (it : BoardItem) : String :=
  match it.statusOptionId with
  | none => ""
  | some oid =>
      match project.field.options.find? (fun o => o.id == oid) with
      | some o => o.name
      | none => ""

/-- Models `addProjectV2ItemById` as documented at main.go line 270 and in
spec section 4.2: adding an already-present content object returns the
existing board item (idempotent add); otherwise a fresh item with no status
is appended.  Returns the `ProjectV2Item` the GraphQL mutation reports
(item id plus current Status label) and the resulting board. -/
def apiAddItem (project : ProjectV2) (b : Board) (contentId : String) :
    ProjectV2Item × Board :=
  match b.items.find? (fun it => it.contentId == contentId) with
  | some it => ({ id := it.itemId, statusName := statusLabel project it }, b)
  | none =>
      let newItem : BoardItem :=
        { itemId := "PVTI_" ++ toString b.nextId, contentId := contentId,
          statusOptionId := none }
      ({ id := newItem.itemId, statusName := "" },
       { items := b.items ++ [newItem], nextId := b.nextId + 1 })

/-- Models `updateProjectV2ItemFieldValue` (main.go lines 288-306): sets the
Status option of the item with the given id.  No item is added or removed. -/
def apiUpdateField (b : Board) (itemId optionId : String) : Board :=
  { items := b.items.map (fun it =>
      if it.itemId == itemId then { it with statusOptionId := some optionId } else it),
    nextId := b.nextId }

/-- The reconciler of spec section 4.2: `addAndUpdateProjectItem` executed
against the modelled Projects API state (`apiAddItem` for the add,
`apiUpdateField` for the status write).  Returns the resulting board and the
list of status-write mutations issued. -/
def reconcile (project : ProjectV2) (b : Board) (contentId fieldID optionID : String) :
    Board × List UpdateCall :=
  let r := apiAddItem project b contentId
  if r.1.statusName.length = 0 then
    (apiUpdateField r.2 r.1.id optionID,
     [{ itemId := r.1.id, fieldId := fieldID, optionId := optionID }])
  else
    (r.2, [])

/-! ### Orchestration (`main`, main.go lines 50-112)

`main` is embedded as a trace-producing function over an abstract gateway.
Discovery (REST pagination of `listRepos` and `searchReposByTopic`) is
external per spec section 1 and is modelled as oracles returning the full
repository lists; `listIssuesAndPullRequests`'s own pagination loop is
embedded because claim C10 concerns the options it sends.  `must(err)`
panics on a non-nil error, aborting the run abnormally: this is modelled by
the run returning `some e` and emitting no further events. -/

/-- Constant `perPage` (main.go line 32). -/
def perPage : Nat := 100

/-- Constant `kubernetesOrgName` (main.go line 34). -/
def kubernetesOrgName : String := "kubernetes"

/-- Constant `kubernetesSIGSOrgName` (main.go line 36). -/
def kubernetesSIGSOrgName : String := "kubernetes-sigs"

/-- Constant `projectNumber` (main.go line 39). -/
def projectNumber : Int := 116

/-- Constant `needsTriageColumnName` (main.go line 41). -/
def needsTriageColumnName : String := "Needs Triage"

/-- Constant `subprojectNeedsTriageColumnName` (main.go line 42). -/
def subprojectNeedsTriageColumnName : String := "Subprojects - Needs Triage"

/-- A repository as used by `main`: only its name is read (`*repo.Name`). -/
structure Repo where
  name : String
  deriving Repr, DecidableEq

/-- An issue or pull request as used by `main` and the reconciler:
`NodeID` (the global content id passed to `addProjectV2ItemById`), plus the
number and title used for progress output. -/
structure Issue where
  nodeId : String
  number : Int
  title : String
  deriving Repr, DecidableEq

/-- The options struct sent to the REST issue-listing endpoint
(`github.IssueListByRepoOptions`, constructed at main.go lines 179-184):
the label filter and the pagination options. -/
structure IssueListByRepoOptions where
  labels : List String
  perPage : Nat
  page : Nat
  deriving Repr, DecidableEq

/-- One observable API interaction of a run: a REST issue-list page request
(with the exact options sent), or one invocation of the reconciler for one
discovered item.  The `owner`/`repo` tags record which discovery loop issued
the call. -/
inductive Event where
  | restList (owner repo : String) (opts : IssueListByRepoOptions)
  | reconcileItem (owner repo : String) (projectId nodeId fieldId optionId : String)
  deriving Repr, DecidableEq

/-- The external API surface `main` talks to.  Each field is the outcome of
one kind of round-trip:
* `projectQuery`: the GraphQL query inside `getProject`;
* `reposByOrg`: `listRepos` (REST pagination already folded, per spec §1);
* `reposByTopicSearch`: `searchReposByTopic` (likewise);
* `issuesByRepo`: one page of `Issues.ListByRepo` — the issues of that page
  and the `NextPage` of the response (`0` = last page);
* `addAndUpdate`: the outcome of `addAndUpdateProjectItem` for one item
  (projectId, item, fieldId, optionId). -/
structure Gateway where
  projectQuery : String → Int → Except GHError ProjectV2
  reposByOrg : String → Except GHError (List Repo)
  reposByTopicSearch : String → String → Except GHError (List Repo)
  issuesByRepo : String → String → IssueListByRepoOptions → Except GHError (List Issue × Nat)
  addAndUpdate : String → Issue → String → String → Except GHError Unit

/-- The `for {}` pagination loop of `listIssuesAndPullRequests`
(main.go lines 186-202), with a fuel bound on the number of pages (the Go
loop terminates because the API eventually reports `NextPage == 0`; runs
needing more pages than `fuel` are not modelled).  Accumulates the issues of
each page and records each options struct sent to `Issues.ListByRepo`. -/
def listIssuesPages (fetch : IssueListByRepoOptions → Except GHError (List Issue × Nat)) :
    Nat → IssueListByRepoOptions → List Issue → List IssueListByRepoOptions →
    List IssueListByRepoOptions × Except GHError (List Issue)
  | 0, _, _, sent => (sent, .error "page limit exceeded")
  | fuel + 1, opts, acc, sent =>
      match fetch opts with
      | .error e => (sent ++ [opts], .error e)
      | .ok (issues, nextPage) =>
          if nextPage = 0 then
            (sent ++ [opts], .ok (acc ++ issues))
          else
            listIssuesPages fetch fuel { opts with page := nextPage } (acc ++ issues)
              (sent ++ [opts])

/-- Embeds `listIssuesAndPullRequests` (main.go lines 177-205): builds the options
struct with `Labels := labels` and `PerPage := perPage` (page `0`, the Go
zero value) and runs the pagination loop.  Returns the options structs sent
to the REST API together with the collected issues. -/
def listIssuesAndPullRequests
    (fetch : IssueListByRepoOptions → Except GHError (List Issue × Nat))
    (labels : List String) (fuel : Nat) :
    List IssueListByRepoOptions × Except GHError (List Issue) :=
  listIssuesPages fetch fuel { labels := labels, perPage := perPage, page := 0 } [] []

/-- The inner `for _, item := range items` loop of `main` (lines 87-91 and
106-110): reconcile each discovered item in order; `must(err)` aborts the
run at the first reconciliation error.  Returns the reconciler invocations
attempted, in order, and the aborting error if any. -/
def processItems (gw : Gateway) (owner repo projectId fieldId optionId : String) :
    List Issue → List Event × Option GHError
  | [] => ([], none)
  | item :: rest =>
      match gw.addAndUpdate projectId item fieldId optionId with
      | .error e =>
          ([.reconcileItem owner repo projectId item.nodeId fieldId optionId], some e)
      | .ok _ =>
          let r := processItems gw owner repo projectId fieldId optionId rest
          (.reconcileItem owner repo projectId item.nodeId fieldId optionId :: r.1, r.2)

/-- The per-repository loop of `main` (lines 80-92 and 99-111): for each
repository, list its issues/PRs with the given label filter, then reconcile
each item; any error (`must`) aborts the whole run. -/
def processRepos (gw : Gateway) (owner projectId fieldId optionId : String)
    (labels : List String) (fuel : Nat) :
    List Repo → List Event × Option GHError
  | [] => ([], none)
  | repo :: rest =>
      let lr := listIssuesAndPullRequests (gw.issuesByRepo owner repo.name) labels fuel
      let listEvents := lr.1.map (fun opts => Event.restList owner repo.name opts)
      match lr.2 with
      | .error e => (listEvents, some e)
      | .ok items =>
          let pr := processItems gw owner repo.name projectId fieldId optionId items
          match pr.2 with
          | some e => (listEvents ++ pr.1, some e)
          | none =>
              let rr := processRepos gw owner projectId fieldId optionId labels fuel rest
              (listEvents ++ pr.1 ++ rr.1, rr.2)

/-- Embeds `main` (main.go lines 50-112): resolve the project and the two status
options, then process the `kubernetes` organization's repositories with the
label filter `"sig/auth"` against the "Needs Triage" ids, then the
`kubernetes-sigs` repositories found by topic search with the label filter
`""` against the "Subprojects - Needs Triage" ids.  Every `must(err)` is an
immediate abnormal abort, modelled as `some e` with no further events. -/
def mainRun (gw : Gateway) (fuel : Nat) : List Event × Option GHError :=
  match getProject (gw.projectQuery kubernetesOrgName projectNumber)
      kubernetesOrgName projectNumber with
  | .error e => ([], some e)
  | .ok project =>
      match getStatusFieldOption project needsTriageColumnName with
      | .error e => ([], some e)
      | .ok (needsTriageStatusFieldID, needsTriageOptionID) =>
          match getStatusFieldOption project subprojectNeedsTriageColumnName with
          | .error e => ([], some e)
          | .ok (subprojectStatusFieldID, subprojectNeedsTriageOptionID) =>
              match gw.reposByOrg kubernetesOrgName with
              | .error e => ([], some e)
              | .ok kubernetesOrgRepos =>
                  let ph1 := processRepos gw kubernetesOrgName project.id
                    needsTriageStatusFieldID needsTriageOptionID ["sig/auth"] fuel
                    kubernetesOrgRepos
                  match ph1.2 with
                  | some e => (ph1.1, some e)
                  | none =>
                      match gw.reposByTopicSearch "k8s-sig-auth" kubernetesSIGSOrgName with
                      | .error e => (ph1.1, some e)
                      | .ok kubernetesSIGSRepos =>
                          let ph2 := processRepos gw kubernetesSIGSOrgName project.id
                            subprojectStatusFieldID subprojectNeedsTriageOptionID [""] fuel
                            kubernetesSIGSRepos
                          (ph1.1 ++ ph2.1, ph2.2)

/-- A gateway whose discovery results and reconciliation outcomes are fixed
data: the project query always returns `project`, the two discovery
categories return `k8sRepos` and `sigsRepos`, every issue-list request
returns `issuesFor owner repo` in a single page, and reconciling `item`
yields `res item`.  Used to instantiate run-level theorems. -/
def testGateway (project : ProjectV2) (k8sRepos sigsRepos : List Repo)
    (issuesFor : String → String → List Issue)
    (res : Issue → Except GHError Unit) : Gateway :=
  { projectQuery := fun _ _ => .ok project,
    reposByOrg := fun _ => .ok k8sRepos,
    reposByTopicSearch := fun _ _ => .ok sigsRepos,
    issuesByRepo := fun owner repo _ => .ok (issuesFor owner repo, 0),
    addAndUpdate := fun _ item _ _ => res item }

/-! ### Concrete fixtures used by witnesses -/

/-- A concrete project shaped like the SIG Auth board: project number 116
with a Status field carrying both recognized options. -/
def sampleProject : ProjectV2 :=
  { title := "SIG Auth", id := "PVT_1", number := 116,
    field := { id := "PVTSSF_status",
               options := [{ id := "OPT_A", name := "Needs Triage" },
                           { id := "OPT_B", name := "Subprojects - Needs Triage" }] } }

/-- A concrete board already holding content `I_1` with a non-empty status. -/
def triagedBoard : Board :=
  { items := [{ itemId := "PVTI_7", contentId := "I_1", statusOptionId := some "OPT_B" }],
    nextId := 8 }

/-- A concrete issue used by run-level witnesses. -/
def sampleIssue (n : Int) : Issue :=
  { nodeId := "I_" ++ toString n, number := n, title := "sample" }

/-- A query result whose project id is the GraphQL zero value. -/
def ghostProject : ProjectV2 :=
  { title := "ghost", id := "", number := 116, field := { id := "", options := [] } }

/-- A concrete all-successful gateway with one `kubernetes` repository
holding one issue. -/
def mappingGateway : Gateway :=
  testGateway sampleProject [Repo.mk "repo1"] [] (fun _ _ => [sampleIssue 1]) (fun _ => .ok ())

/-! ## Theorems -/

/-- Auxiliary: a string has length zero exactly when it is the empty string
(the Go reconciler tests `len(name) == 0`, the spec speaks of the label
being empty). -/
theorem string_length_eq_zero_iff (s : String) : s.length = 0 ↔ s = "" := by
  constructor
  · intro h
    cases s with
    | mk data =>
      have hd : data = [] := List.length_eq_zero.mp h
      subst hd
      rfl
  · intro h
    subst h
    rfl

/-- Auxiliary: a successful `findOption` returns a member option whose name
is exactly the requested one. -/
theorem findOption_eq_some (opts : List StatusOption) (desired : String)
    (opt : StatusOption) (h : findOption opts desired = some opt) :
    opt ∈ opts ∧ opt.name = desired := by
  induction opts with
  | nil => simp [findOption] at h
  | cons o rest ih =>
    by_cases ho : o.name = desired
    · simp only [findOption, if_pos ho] at h
      cases h
      exact ⟨List.mem_cons_self _ _, ho⟩
    · simp only [findOption, if_neg ho] at h
      obtain ⟨hm, hn⟩ := ih h
      exact ⟨List.mem_cons_of_mem _ hm, hn⟩

/-- Auxiliary: a failed `findOption` means no option has the requested name. -/
theorem findOption_eq_none (opts : List StatusOption) (desired : String)
    (h : findOption opts desired = none) :
    ∀ opt ∈ opts, opt.name ≠ desired := by
  induction opts with
  | nil => intro opt hm; simp at hm
  | cons o rest ih =>
    by_cases ho : o.name = desired
    · simp [findOption, if_pos ho] at h
    · simp only [findOption, if_neg ho] at h
      intro opt hm
      rcases List.mem_cons.mp hm with heq | hmem
      · subst heq; exact ho
      · exact ih h opt hmem

/-- C3: `getStatusFieldOption` succeeds exactly when the Status field has an
option whose label equals the requested label character for character (no
case-insensitive or prefix matching); on success it returns the field's id
with that option's id, and otherwise it fails with a not-found error. -/
theorem getStatusFieldOption_exact (project : ProjectV2) (desired : String) :
    match getStatusFieldOption project desired with
    | .ok r => r.1 = project.field.id ∧
        ∃ opt, opt ∈ project.field.options ∧ opt.name = desired ∧ opt.id = r.2
    | .error _ => ∀ opt ∈ project.field.options, opt.name ≠ desired := by
  unfold getStatusFieldOption
  cases hf : findOption project.field.options desired with
  | some opt =>
    obtain ⟨hm, hn⟩ := findOption_eq_some _ _ _ hf
    exact ⟨rfl, opt, hm, hn, rfl⟩
  | none =>
    exact findOption_eq_none _ _ hf

/-- C6: `getProject`, querying the organization's board with the requested
number, fails with a not-found error exactly when no board of the
organization has that number (the locator of this program is the project
number; no other matching is consulted), and on success returns the matching
board. -/
theorem getProject_locator_spec (projects : List ProjectV2) (org : String)
    (number : Int) (hids : ∀ p ∈ projects, p.id ≠ "") :
    match getProject (.ok (queryProjectV2ByNumber projects number)) org number with
    | .ok p => p ∈ projects ∧ p.number = number
    | .error _ => ∀ p ∈ projects, p.number ≠ number := by
  cases hf : projects.find? (fun p => p.number == number) with
  | some p =>
    have hm : p ∈ projects := List.mem_of_find?_eq_some hf
    have hn : p.number = number := by
      have := List.find?_some hf
      exact beq_iff_eq.mp this
    simp only [getProject, queryProjectV2ByNumber, hf, if_neg (hids p hm)]
    exact ⟨hm, hn⟩
  | none =>
    simp only [getProject, queryProjectV2ByNumber, hf, if_true]
    intro p hp
    have := List.find?_eq_none.mp hf p hp
    simpa using this

/-- Witness for C6 at a concrete organization: the sample project is found
by its number, and a missing number yields the error branch. -/
theorem getProject_locator_spec_witness :
    (match getProject (.ok (queryProjectV2ByNumber [sampleProject] 116)) "kubernetes" 116 with
     | .ok p => p ∈ [sampleProject] ∧ p.number = 116
     | .error _ => ∀ p ∈ [sampleProject], p.number ≠ 116) :=
  getProject_locator_spec [sampleProject] "kubernetes" 116 (by decide)

/-- C7: when the add-to-board operation fails, `addAndUpdateProjectItem`
returns that very error unchanged — for every possible status-write oracle,
so the write is never attempted and no mutation is issued. -/
theorem addAndUpdate_propagates_add_error (projectID fieldID optionID : String)
    (e : GHError)
    (upd : String → String → String → String → Except GHError Unit) :
    addAndUpdateProjectItem projectID (.error e) upd fieldID optionID
      = (.error e, []) := rfl

/-- C9: `getProject` treats an empty project id as absence — a query that
succeeds with an empty-ID `ProjectV2` yields the not-found error — and hence
every project it returns has a non-empty id. -/
theorem getProject_rejects_empty_id :
    (∀ (p : ProjectV2) (org : String) (number : Int), p.id = "" →
       getProject (.ok p) org number
         = .error ("project " ++ toString number ++ " not found in org " ++ org)) ∧
    (∀ (q : Except GHError ProjectV2) (org : String) (number : Int) (p : ProjectV2),
       getProject q org number = .ok p → p.id ≠ "") := by
  constructor
  · intro p org number h
    simp [getProject, h]
  · intro q org number p h
    cases q with
    | error e => simp [getProject] at h
    | ok p' =>
      by_cases hid : p'.id = ""
      · simp [getProject, hid] at h
      · simp only [getProject, if_neg hid] at h
        cases h
        exact hid

/-- Witness for C9: the empty-id query result is rejected at concrete
inputs, and the sample project's id is non-empty. -/
theorem getProject_rejects_empty_id_witness :
    getProject (.ok ghostProject) "kubernetes" 116
      = .error ("project " ++ toString (116 : Int) ++ " not found in org " ++ "kubernetes")
    ∧ sampleProject.id ≠ "" :=
  ⟨getProject_rejects_empty_id.1 ghostProject "kubernetes" 116 rfl,
   getProject_rejects_empty_id.2 (.ok sampleProject) "kubernetes" 116 sampleProject
     (by simp [getProject, sampleProject])⟩

/-- Auxiliary: a status write changes no item's contentId, so searching the
updated board by content id finds the (possibly updated) image of the item
the original search found. -/
theorem find?_contentId_apiUpdateField (b : Board) (tid oid cid : String) :
    (apiUpdateField b tid oid).items.find? (fun it => it.contentId == cid)
      = (b.items.find? (fun it => it.contentId == cid)).map
          (fun it => if it.itemId == tid
            then { it with statusOptionId := some oid } else it) := by
  show (b.items.map _).find? _ = _
  rw [List.find?_map]
  have hp : ((fun it => it.contentId == cid) ∘ fun it =>
      (if it.itemId == tid then { it with statusOptionId := some oid } else it : BoardItem))
      = fun it => it.contentId == cid := by
    funext it
    by_cases h : it.itemId = tid <;> simp [h]
  rw [hp]

/-- Auxiliary: when the board item returned by the (idempotent) add already
carries a non-empty status label, the reconciler performs no write and
leaves the board unchanged. -/
theorem reconcile_skip (project : ProjectV2) (b : Board)
    (cid fieldID optionID : String)
    (hne : (apiAddItem project b cid).1.statusName ≠ "") :
    reconcile project b cid fieldID optionID = (b, []) := by
  have hlen : ¬ (apiAddItem project b cid).1.statusName.length = 0 := by
    intro h0
    exact hne ((string_length_eq_zero_iff _).mp h0)
  cases hf : b.items.find? (fun it => it.contentId == cid) with
  | some it =>
    simp only [reconcile]
    rw [if_neg hlen]
    simp [apiAddItem, hf]
  | none =>
    exfalso
    apply hne
    simp [apiAddItem, hf]

/-- Auxiliary: after a status write of `optionID` to the board item found by
content id, re-adding the same content reports that option's label as the
item's status. -/
theorem apiAddItem_statusName_after_update (project : ProjectV2) (b : Board)
    (cid tid optionID : String) (it : BoardItem) (o : StatusOption)
    (hf : b.items.find? (fun x => x.contentId == cid) = some it)
    (htid : it.itemId = tid)
    (hfind : project.field.options.find? (fun x => x.id == optionID) = some o) :
    (apiAddItem project (apiUpdateField b tid optionID) cid).1.statusName = o.name := by
  subst htid
  have hff := find?_contentId_apiUpdateField b it.itemId optionID cid
  rw [hf] at hff
  simp only [Option.map_some', beq_self_eq_true, if_true] at hff
  simp [apiAddItem, hff, statusLabel, hfind]

/-- C1: in a reconcile call whose add succeeds, the status write is issued
exactly when the returned board item's status label is empty; in
particular a board item with any non-empty status label gets no write and
the stored status (indeed the whole board) is unchanged. -/
theorem addAndUpdate_write_iff_status_empty :
    (∀ (projectID fieldID optionID : String) (item : ProjectV2Item)
       (upd : String → String → String → String → Except GHError Unit),
       (addAndUpdateProjectItem projectID (.ok item) upd fieldID optionID).2 ≠ []
         ↔ item.statusName = "") ∧
    (∀ (project : ProjectV2) (b : Board) (cid fieldID optionID : String),
       (apiAddItem project b cid).1.statusName ≠ "" →
       reconcile project b cid fieldID optionID = (b, [])) := by
  constructor
  · intro pid f o item upd
    by_cases h : item.statusName.length = 0
    · simp [addAndUpdateProjectItem, h, (string_length_eq_zero_iff _).mp h]
    · have hne : item.statusName ≠ "" := by
        intro he
        exact h ((string_length_eq_zero_iff _).mpr he)
      simp [addAndUpdateProjectItem, h, hne]
  · intro project b cid fieldID optionID hne
    exact reconcile_skip project b cid fieldID optionID hne

/-- Witness for C1: a board item whose status label is "In Progress" (set by
a human) causes no write, for a control-flow call and for the stateful
reconciler on a concrete already-triaged board. -/
theorem addAndUpdate_write_iff_status_empty_witness :
    ((addAndUpdateProjectItem "PVT_1" (.ok (ProjectV2Item.mk "PVTI_7" "In Progress"))
        (fun _ _ _ _ => .ok ()) "PVTSSF_status" "OPT_A").2 ≠ []
      ↔ (ProjectV2Item.mk "PVTI_7" "In Progress").statusName = "")
    ∧ reconcile sampleProject triagedBoard "I_1" "PVTSSF_status" "OPT_A"
        = (triagedBoard, []) :=
  ⟨addAndUpdate_write_iff_status_empty.1 "PVT_1" "PVTSSF_status" "OPT_A"
      (ProjectV2Item.mk "PVTI_7" "In Progress") (fun _ _ _ _ => .ok ()),
   addAndUpdate_write_iff_status_empty.2 sampleProject triagedBoard "I_1"
      "PVTSSF_status" "OPT_A" (by decide)⟩

/-- C2: reconciling the same (project, content, target) twice with no
intervening external change gives the same final board as reconciling once —
no second board item is created — and the second invocation issues no status
write.  The hypotheses state that the target option id does belong to the
project's Status field and carries a non-empty label, which the orchestrator
guarantees by resolving the id from a non-empty label. -/
theorem reconcile_idempotent (project : ProjectV2) (b : Board)
    (cid fieldID optionID : String) (o : StatusOption)
    (hfind : project.field.options.find? (fun x => x.id == optionID) = some o)
    (hname : o.name ≠ "") :
    reconcile project (reconcile project b cid fieldID optionID).1 cid fieldID optionID
      = ((reconcile project b cid fieldID optionID).1, []) := by
  cases hf : b.items.find? (fun x => x.contentId == cid) with
  | some it =>
    by_cases hlen : (statusLabel project it).length = 0
    · have h1 : reconcile project b cid fieldID optionID
          = (apiUpdateField b it.itemId optionID,
             [UpdateCall.mk it.itemId fieldID optionID]) := by
        simp [reconcile, apiAddItem, hf, hlen]
      rw [h1]
      apply reconcile_skip
      rw [apiAddItem_statusName_after_update project b cid it.itemId optionID it o hf rfl hfind]
      exact hname
    · have hne : (apiAddItem project b cid).1.statusName ≠ "" := by
        simp only [apiAddItem, hf]
        intro he
        apply hlen
        rw [he]
        rfl
      have h1 := reconcile_skip project b cid fieldID optionID hne
      rw [h1]
      exact reconcile_skip project b cid fieldID optionID hne
  | none =>
    have hf2 : (Board.mk (b.items ++ [BoardItem.mk ("PVTI_" ++ toString b.nextId) cid none])
          (b.nextId + 1)).items.find? (fun x => x.contentId == cid)
        = some (BoardItem.mk ("PVTI_" ++ toString b.nextId) cid none) := by
      simp [hf]
    have h1 : reconcile project b cid fieldID optionID
        = (apiUpdateField
            (Board.mk (b.items ++ [BoardItem.mk ("PVTI_" ++ toString b.nextId) cid none])
              (b.nextId + 1))
            ("PVTI_" ++ toString b.nextId) optionID,
           [UpdateCall.mk ("PVTI_" ++ toString b.nextId) fieldID optionID]) := by
      simp [reconcile, apiAddItem, hf]
    rw [h1]
    apply reconcile_skip
    rw [apiAddItem_statusName_after_update project _ cid _ optionID _ o hf2 rfl hfind]
    exact hname

/-- Witness for C2: reconciling content `I_1` twice onto an initially empty
board ends exactly where one reconciliation ends, with no write issued the
second time. -/
theorem reconcile_idempotent_witness :
    reconcile sampleProject
        (reconcile sampleProject (Board.mk [] 0) "I_1" "PVTSSF_status" "OPT_A").1
        "I_1" "PVTSSF_status" "OPT_A"
      = ((reconcile sampleProject (Board.mk [] 0) "I_1" "PVTSSF_status" "OPT_A").1, []) :=
  reconcile_idempotent sampleProject (Board.mk [] 0) "I_1" "PVTSSF_status" "OPT_A"
    (StatusOption.mk "OPT_A" "Needs Triage") (by decide) (by decide)

/-- Auxiliary: the add operation never removes a board item. -/
theorem apiAddItem_mem (project : ProjectV2) (b : Board) (cid : String)
    (x : BoardItem) (hx : x ∈ b.items) :
    x ∈ (apiAddItem project b cid).2.items := by
  cases hf : b.items.find? (fun it => it.contentId == cid) with
  | some it => simpa [apiAddItem, hf] using hx
  | none =>
    simp only [apiAddItem, hf]
    exact List.mem_append_left _ hx

/-- Auxiliary: the add operation never shrinks the board. -/
theorem apiAddItem_items_le (project : ProjectV2) (b : Board) (cid : String) :
    b.items.length ≤ (apiAddItem project b cid).2.items.length := by
  cases hf : b.items.find? (fun it => it.contentId == cid) with
  | some it => simp [apiAddItem, hf]
  | none => simp [apiAddItem, hf]

/-- Auxiliary: the status write keeps every board item (same item id and
content id), only its status option may change. -/
theorem apiUpdateField_mem (b : Board) (tid oid : String) (x : BoardItem)
    (hx : x ∈ b.items) :
    ∃ x', x' ∈ (apiUpdateField b tid oid).items
      ∧ x'.itemId = x.itemId ∧ x'.contentId = x.contentId := by
  refine ⟨if x.itemId == tid then { x with statusOptionId := some oid } else x, ?_, ?_, ?_⟩
  · exact List.mem_map_of_mem _ hx
  · by_cases h : x.itemId == tid <;> simp [h]
  · by_cases h : x.itemId == tid <;> simp [h]

/-- C8: one reconcile call issues at most one status-write mutation, and
deletes nothing: the board never shrinks and every pre-existing board item
survives with its identity (item id and content id) intact. -/
theorem reconcile_at_most_one_write_no_delete (project : ProjectV2) (b : Board)
    (cid fieldID optionID : String) :
    (reconcile project b cid fieldID optionID).2.length ≤ 1 ∧
    b.items.length ≤ (reconcile project b cid fieldID optionID).1.items.length ∧
    ∀ x ∈ b.items, ∃ x', x' ∈ (reconcile project b cid fieldID optionID).1.items
      ∧ x'.itemId = x.itemId ∧ x'.contentId = x.contentId := by
  refine ⟨?_, ?_, ?_⟩
  · simp only [reconcile]
    split <;> simp
  · have h1 := apiAddItem_items_le project b cid
    simp only [reconcile]
    split
    · simpa [apiUpdateField] using h1
    · exact h1
  · intro x hx
    have h2 := apiAddItem_mem project b cid x hx
    simp only [reconcile]
    split
    · exact apiUpdateField_mem _ _ _ _ h2
    · exact ⟨x, h2, rfl, rfl⟩

/-- Witness for C8 at a concrete input: reconciling fresh content `I_9` onto
the already-triaged board issues at most one write and keeps the existing
item `PVTI_7`. -/
theorem reconcile_at_most_one_write_no_delete_witness :
    (reconcile sampleProject triagedBoard "I_9" "PVTSSF_status" "OPT_A").2.length ≤ 1 ∧
    ∃ x', x' ∈ (reconcile sampleProject triagedBoard "I_9" "PVTSSF_status" "OPT_A").1.items
      ∧ x'.itemId = (BoardItem.mk "PVTI_7" "I_1" (some "OPT_B")).itemId
      ∧ x'.contentId = (BoardItem.mk "PVTI_7" "I_1" (some "OPT_B")).contentId :=
  ⟨(reconcile_at_most_one_write_no_delete sampleProject triagedBoard "I_9"
      "PVTSSF_status" "OPT_A").1,
   (reconcile_at_most_one_write_no_delete sampleProject triagedBoard "I_9"
      "PVTSSF_status" "OPT_A").2.2
     (BoardItem.mk "PVTI_7" "I_1" (some "OPT_B")) (by decide)⟩

/-- Auxiliary: every event emitted by the per-item loop is a reconciler
invocation for the loop's own repository, project id and target ids. -/
theorem processItems_events (gw : Gateway) (owner repo pid f o : String)
    (items : List Issue) :
    ∀ ev ∈ (processItems gw owner repo pid f o items).1,
      ∃ nid, ev = .reconcileItem owner repo pid nid f o := by
  induction items with
  | nil => intro ev hev; simp [processItems] at hev
  | cons item rest ih =>
    intro ev hev
    cases h : gw.addAndUpdate pid item f o with
    | error e =>
      simp [processItems, h] at hev
      exact ⟨item.nodeId, hev⟩
    | ok u =>
      simp only [processItems, h] at hev
      rcases List.mem_cons.mp hev with he | hm
      · exact ⟨item.nodeId, he⟩
      · exact ih ev hm

/-- Auxiliary: the pagination loop only ever changes the `page` of the
options struct, so every options struct it sends carries the original label
filter. -/
theorem listIssuesPages_labels
    (fetch : IssueListByRepoOptions → Except GHError (List Issue × Nat)) :
    ∀ (fuel : Nat) (opts : IssueListByRepoOptions) (acc : List Issue)
      (sent : List IssueListByRepoOptions),
      (∀ s ∈ sent, s.labels = opts.labels) →
      ∀ s ∈ (listIssuesPages fetch fuel opts acc sent).1, s.labels = opts.labels := by
  intro fuel
  induction fuel with
  | zero =>
    intro opts acc sent hsent s hs
    simp only [listIssuesPages] at hs
    exact hsent s hs
  | succ n ih =>
    intro opts acc sent hsent s hs
    cases hf : fetch opts with
    | error e =>
      simp only [listIssuesPages, hf] at hs
      rcases List.mem_append.mp hs with h1 | h2
      · exact hsent s h1
      · rw [List.mem_singleton.mp h2]
    | ok pr =>
      obtain ⟨issues, nextPage⟩ := pr
      simp only [listIssuesPages, hf] at hs
      by_cases hz : nextPage = 0
      · rw [if_pos hz] at hs
        rcases List.mem_append.mp hs with h1 | h2
        · exact hsent s h1
        · rw [List.mem_singleton.mp h2]
      · rw [if_neg hz] at hs
        have hsent' : ∀ t ∈ sent ++ [opts],
            t.labels = ({ opts with page := nextPage } : IssueListByRepoOptions).labels := by
          intro t ht
          rcases List.mem_append.mp ht with h1 | h2
          · exact hsent t h1
          · rw [List.mem_singleton.mp h2]
        exact ih { opts with page := nextPage } (acc ++ issues) (sent ++ [opts]) hsent' s hs

/-- Auxiliary: every event emitted by the per-repository loop is either an
issue-list request carrying the loop's label filter, or a reconciler
invocation carrying the loop's project id and target ids, tagged with the
loop's organization. -/
theorem processRepos_events (gw : Gateway) (owner pid f o : String)
    (labels : List String) (fuel : Nat) (repos : List Repo) :
    ∀ ev ∈ (processRepos gw owner pid f o labels fuel repos).1,
      (∃ rname opts, ev = .restList owner rname opts ∧ opts.labels = labels) ∨
      (∃ rname nid, ev = .reconcileItem owner rname pid nid f o) := by
  induction repos with
  | nil => intro ev hev; simp [processRepos] at hev
  | cons repo rest ih =>
    intro ev hev
    have hlist : ∀ opts ∈ (listIssuesAndPullRequests (gw.issuesByRepo owner repo.name)
        labels fuel).1, opts.labels = labels := by
      intro opts hopts
      exact listIssuesPages_labels (gw.issuesByRepo owner repo.name) fuel
        { labels := labels, perPage := perPage, page := 0 } [] [] (by intro t ht; simp at ht)
        opts hopts
    have hmapped : ∀ ev₁ ∈ (listIssuesAndPullRequests (gw.issuesByRepo owner repo.name)
          labels fuel).1.map (fun opts => Event.restList owner repo.name opts),
        ∃ rname opts, ev₁ = .restList owner rname opts ∧ opts.labels = labels := by
      intro ev₁ h₁
      rcases List.mem_map.mp h₁ with ⟨opts, hopts, heq⟩
      exact ⟨repo.name, opts, heq.symm, hlist opts hopts⟩
    simp only [processRepos] at hev
    split at hev
    · exact Or.inl (hmapped ev hev)
    · split at hev
      · rcases List.mem_append.mp hev with h1 | h2
        · exact Or.inl (hmapped ev h1)
        · rcases processItems_events gw owner repo.name pid f o _ ev h2 with ⟨nid, heq⟩
          exact Or.inr ⟨repo.name, nid, heq⟩
      · rcases List.mem_append.mp hev with h12 | h3
        · rcases List.mem_append.mp h12 with h1 | h2
          · exact Or.inl (hmapped ev h1)
          · rcases processItems_events gw owner repo.name pid f o _ ev h2 with ⟨nid, heq⟩
            exact Or.inr ⟨repo.name, nid, heq⟩
        · exact ih ev h3

/-- Auxiliary: a reconciler event found in a per-repository loop's trace
carries that loop's organization tag, project id, field id and option id. -/
theorem phase_reconcile_ids (gw : Gateway) (owner pid f o : String)
    (labels : List String) (fuel : Nat) (repos : List Repo)
    (owner' rname pid' nid f' o' : String)
    (hev : Event.reconcileItem owner' rname pid' nid f' o'
        ∈ (processRepos gw owner pid f o labels fuel repos).1) :
    owner' = owner ∧ pid' = pid ∧ f' = f ∧ o' = o := by
  rcases processRepos_events gw owner pid f o labels fuel repos _ hev with
    ⟨rn, opts, heq, _⟩ | ⟨rn, nid', heq⟩
  · exact Event.noConfusion heq
  · injection heq with h1 h2 h3 h4 h5 h6
    exact ⟨h1, h3, h5, h6⟩

/-- Auxiliary: an issue-list event found in a per-repository loop's trace
carries that loop's organization tag and label filter. -/
theorem phase_restList_labels (gw : Gateway) (owner pid f o : String)
    (labels : List String) (fuel : Nat) (repos : List Repo)
    (owner' rname : String) (opts : IssueListByRepoOptions)
    (hev : Event.restList owner' rname opts
        ∈ (processRepos gw owner pid f o labels fuel repos).1) :
    owner' = owner ∧ opts.labels = labels := by
  rcases processRepos_events gw owner pid f o labels fuel repos _ hev with
    ⟨rn, opts', heq, hlab⟩ | ⟨rn, nid', heq⟩
  · injection heq with h1 h2 h3
    subst h3
    exact ⟨h1, hlab⟩
  · exact Event.noConfusion heq

/-- Auxiliary: if every item before `x` reconciles successfully and `x`
fails with `e`, the per-item loop reconciles exactly the items up to and
including `x` — the items after `x` are never attempted — and reports `e`. -/
theorem processItems_fail (gw : Gateway) (owner repo pid f o : String)
    (pre post : List Issue) (x : Issue) (e : GHError)
    (hpre : ∀ it ∈ pre, gw.addAndUpdate pid it f o = .ok ())
    (hx : gw.addAndUpdate pid x f o = .error e) :
    processItems gw owner repo pid f o (pre ++ x :: post)
      = ((pre ++ [x]).map (fun it => Event.reconcileItem owner repo pid it.nodeId f o),
         some e) := by
  induction pre with
  | nil => simp [processItems, hx]
  | cons it pre' ih =>
    have hit : gw.addAndUpdate pid it f o = .ok () := hpre it (List.mem_cons_self _ _)
    have ih' := ih (fun y hy => hpre y (List.mem_cons_of_mem _ hy))
    simp only [List.cons_append, processItems, hit]
    simp [List.append_eq, ih']

/-- C4: a reconciliation error aborts the whole run immediately.  For any
option-resolving project, one discovered repository whose items are
`pre ++ x :: post` where every item of `pre` reconciles fine and `x` fails
with `e`: the run's trace is exactly the issue-list request followed by the
reconciliations of `pre` and `x` — the items after `x` and the entire
second discovery category (`sigsRepos`, arbitrary) are never processed —
and the run terminates reporting `e` (the `must(err)` panic). -/
theorem mainRun_fail_fast (project : ProjectV2) (ntF ntO spF spO : String)
    (h1 : getStatusFieldOption project needsTriageColumnName = .ok (ntF, ntO))
    (h2 : getStatusFieldOption project subprojectNeedsTriageColumnName = .ok (spF, spO))
    (hpid : project.id ≠ "")
    (r : Repo) (sigsRepos : List Repo) (pre post : List Issue) (x : Issue)
    (e : GHError) (res : Issue → Except GHError Unit)
    (hpre : ∀ it ∈ pre, res it = .ok ())
    (hx : res x = .error e) :
    mainRun (testGateway project [r] sigsRepos (fun _ _ => pre ++ x :: post) res) 1
      = (Event.restList kubernetesOrgName r.name
            (IssueListByRepoOptions.mk ["sig/auth"] perPage 0)
          :: (pre ++ [x]).map (fun it =>
               Event.reconcileItem kubernetesOrgName r.name project.id it.nodeId ntF ntO),
         some e) := by
  have hgp : getProject (Except.ok project) kubernetesOrgName projectNumber
      = .ok project := by
    simp [getProject, hpid]
  have hitems : processItems
        (testGateway project [r] sigsRepos (fun _ _ => pre ++ x :: post) res)
        kubernetesOrgName r.name project.id ntF ntO (pre ++ x :: post)
      = ((pre ++ [x]).map (fun it =>
          Event.reconcileItem kubernetesOrgName r.name project.id it.nodeId ntF ntO),
         some e) :=
    processItems_fail _ _ _ _ _ _ pre post x e hpre hx
  simp only [testGateway] at hitems
  simp only [mainRun, testGateway, hgp, h1, h2, processRepos, listIssuesAndPullRequests,
    listIssuesPages, List.nil_append, if_true, hitems]
  simp

/-- Witness for C4: with five discovered items of which the third fails,
exactly the first three are reconciled and the run reports the failure. -/
theorem mainRun_fail_fast_witness :
    mainRun (testGateway sampleProject [Repo.mk "repo1"] [Repo.mk "sub1"]
        (fun _ _ => [sampleIssue 1, sampleIssue 2]
          ++ sampleIssue 3 :: [sampleIssue 4, sampleIssue 5])
        (fun it => if it.nodeId = "I_3" then .error "boom" else .ok ())) 1
      = (Event.restList kubernetesOrgName (Repo.mk "repo1").name
            (IssueListByRepoOptions.mk ["sig/auth"] perPage 0)
          :: ([sampleIssue 1, sampleIssue 2] ++ [sampleIssue 3]).map (fun it =>
               Event.reconcileItem kubernetesOrgName (Repo.mk "repo1").name sampleProject.id
                 it.nodeId "PVTSSF_status" "OPT_A"),
         some "boom") :=
  mainRun_fail_fast sampleProject "PVTSSF_status" "OPT_A" "PVTSSF_status" "OPT_B"
    (by decide) (by decide) (by decide)
    (Repo.mk "repo1") [Repo.mk "sub1"] [sampleIssue 1, sampleIssue 2]
    [sampleIssue 4, sampleIssue 5]
    (sampleIssue 3) "boom" (fun it => if it.nodeId = "I_3" then .error "boom" else .ok ())
    (by decide) (by decide)

/-- C5: every reconciler invocation of a run targets the ids resolved from
the project the run fetched: items of the `kubernetes` category are
reconciled against the field/option resolved for "Needs Triage", and items
of the `kubernetes-sigs` category against the field/option resolved for
"Subprojects - Needs Triage". -/
theorem mainRun_category_mapping (gw : Gateway) (fuel : Nat) (ev : Event)
    (hev : ev ∈ (mainRun gw fuel).1)
    (owner rname pid nid f o : String)
    (heq : ev = .reconcileItem owner rname pid nid f o) :
    ∃ project, getProject (gw.projectQuery kubernetesOrgName projectNumber)
        kubernetesOrgName projectNumber = .ok project ∧ pid = project.id ∧
      ((owner = kubernetesOrgName ∧
          getStatusFieldOption project needsTriageColumnName = .ok (f, o)) ∨
       (owner = kubernetesSIGSOrgName ∧
          getStatusFieldOption project subprojectNeedsTriageColumnName = .ok (f, o))) := by
  subst heq
  simp only [mainRun] at hev
  split at hev
  · simp at hev
  · rename_i project hproj
    split at hev
    · simp at hev
    · rename_i ntF ntO hnt
      split at hev
      · simp at hev
      · rename_i spF spO hsp
        split at hev
        · simp at hev
        · rename_i k8sRepos hrepos
          split at hev
          · rename_i e hph1
            obtain ⟨h1, h2, h3, h4⟩ := phase_reconcile_ids gw kubernetesOrgName project.id
              ntF ntO ["sig/auth"] fuel k8sRepos owner rname pid nid f o hev
            exact ⟨project, hproj, h2, Or.inl ⟨h1, by rw [h3, h4]; exact hnt⟩⟩
          · rename_i hph1
            split at hev
            · rename_i e hsearch
              obtain ⟨h1, h2, h3, h4⟩ := phase_reconcile_ids gw kubernetesOrgName project.id
                ntF ntO ["sig/auth"] fuel k8sRepos owner rname pid nid f o hev
              exact ⟨project, hproj, h2, Or.inl ⟨h1, by rw [h3, h4]; exact hnt⟩⟩
            · rename_i sigsRepos hsearch
              rcases List.mem_append.mp hev with hin | hin
              · obtain ⟨h1, h2, h3, h4⟩ := phase_reconcile_ids gw kubernetesOrgName project.id
                  ntF ntO ["sig/auth"] fuel k8sRepos owner rname pid nid f o hin
                exact ⟨project, hproj, h2, Or.inl ⟨h1, by rw [h3, h4]; exact hnt⟩⟩
              · obtain ⟨h1, h2, h3, h4⟩ := phase_reconcile_ids gw kubernetesSIGSOrgName project.id
                  spF spO [""] fuel sigsRepos owner rname pid nid f o hin
                exact ⟨project, hproj, h2, Or.inr ⟨h1, by rw [h3, h4]; exact hsp⟩⟩

/-- Witness for C5: in a concrete successful run, the reconciliation of the
single discovered `kubernetes` item targets the "Needs Triage" ids of the
fetched project. -/
theorem mainRun_category_mapping_witness :
    ∃ project, getProject (mappingGateway.projectQuery kubernetesOrgName projectNumber)
        kubernetesOrgName projectNumber = .ok project ∧ "PVT_1" = project.id ∧
      (("kubernetes" = kubernetesOrgName ∧
          getStatusFieldOption project needsTriageColumnName
            = .ok ("PVTSSF_status", "OPT_A")) ∨
       ("kubernetes" = kubernetesSIGSOrgName ∧
          getStatusFieldOption project subprojectNeedsTriageColumnName
            = .ok ("PVTSSF_status", "OPT_A"))) :=
  mainRun_category_mapping mappingGateway 1
    (Event.reconcileItem "kubernetes" "repo1" "PVT_1" "I_1" "PVTSSF_status" "OPT_A")
    (by decide) "kubernetes" "repo1" "PVT_1" "I_1" "PVTSSF_status" "OPT_A" rfl

/-- C10: every issue-list request of a run carries the label filter of its
category — `["sig/auth"]` for the `kubernetes` organization and the
one-element list `[""]` (the empty-string label produced by
`listIssuesAndPullRequests(ctx, org, repo, "")`) for `kubernetes-sigs` —
and a run over a `kubernetes-sigs` repository does send a request whose
options carry `Labels = [""]`. -/
theorem mainRun_label_filters :
    (∀ (gw : Gateway) (fuel : Nat) (ev : Event), ev ∈ (mainRun gw fuel).1 →
       ∀ owner rname opts, ev = .restList owner rname opts →
         (owner = kubernetesOrgName ∧ opts.labels = ["sig/auth"]) ∨
         (owner = kubernetesSIGSOrgName ∧ opts.labels = [""])) ∧
    (∀ rp : Repo,
       Event.restList kubernetesSIGSOrgName rp.name
           (IssueListByRepoOptions.mk [""] perPage 0)
         ∈ (mainRun (testGateway sampleProject [] [rp] (fun _ _ => [])
              (fun _ => .ok ())) 1).1) := by
  constructor
  · intro gw fuel ev hev owner rname opts heq
    subst heq
    simp only [mainRun] at hev
    split at hev
    · simp at hev
    · rename_i project hproj
      split at hev
      · simp at hev
      · rename_i ntF ntO hnt
        split at hev
        · simp at hev
        · rename_i spF spO hsp
          split at hev
          · simp at hev
          · rename_i k8sRepos hrepos
            split at hev
            · rename_i e hph1
              exact Or.inl (phase_restList_labels gw kubernetesOrgName project.id
                ntF ntO ["sig/auth"] fuel k8sRepos owner rname opts hev)
            · rename_i hph1
              split at hev
              · rename_i e hsearch
                exact Or.inl (phase_restList_labels gw kubernetesOrgName project.id
                  ntF ntO ["sig/auth"] fuel k8sRepos owner rname opts hev)
              · rename_i sigsRepos hsearch
                rcases List.mem_append.mp hev with hin | hin
                · exact Or.inl (phase_restList_labels gw kubernetesOrgName project.id
                    ntF ntO ["sig/auth"] fuel k8sRepos owner rname opts hin)
                · exact Or.inr (phase_restList_labels gw kubernetesSIGSOrgName project.id
                    spF spO [""] fuel sigsRepos owner rname opts hin)
  · intro rp
    have hrun : mainRun (testGateway sampleProject [] [rp] (fun _ _ => [])
        (fun _ => .ok ())) 1
        = ([Event.restList kubernetesSIGSOrgName rp.name
            (IssueListByRepoOptions.mk [""] perPage 0)], none) := rfl
    rw [hrun]
    exact List.mem_singleton.mpr rfl

/-- Witness for C10: a concrete run over the `kubernetes-sigs` repository
`sub1` sends an issue-list request whose options carry the one-element
label filter `[""]`. -/
theorem mainRun_label_filters_witness :
    Event.restList kubernetesSIGSOrgName (Repo.mk "sub1").name
        (IssueListByRepoOptions.mk [""] perPage 0)
      ∈ (mainRun (testGateway sampleProject [] [Repo.mk "sub1"] (fun _ _ => [])
           (fun _ => .ok ())) 1).1 :=
  mainRun_label_filters.2 (Repo.mk "sub1")

end SigAuthSync
